import Mathlib

/-!
# Verification of the receipt-processing pipeline

Shallow embedding of the receipt-processing core of the repository:

* the data model (`src/types.ts`): `ExpenseItem`, `ExpenseData`, `ProcessedReceipt`;
* the job state store update (`updateResult`, `src/unnamed/part_001` lines 59-65);
* the per-job stage pipeline and the batch orchestrator
  (`handleProcessReceipts`, `src/unnamed/part_001` lines 32-100);
* the structuring service's parse step
  (`generateExpenseJson`, `src/services/geminiService.ts` lines 106-113).

External collaborator outcomes (Gemini OCR, Gemini structuring, the Google
Sheets write) and the clock (`Date.now()`) are modelled as per-job environment
data (`JobOutcome`); the sequence of `setProcessedReceipts` emissions and of
collaborator invocations is modelled as an explicit event trace.
-/

/-- `saveStatus` values of a job record (`src/types.ts` line 29). -/
inductive SaveStatus where
  | pending
  | success
  | failed
deriving DecidableEq, Repr

/-- One line item of a receipt (`src/types.ts` lines 5-9).
JavaScript numbers are modelled as integers; no claim depends on
fractional arithmetic. -/
structure ExpenseItem where
  item : String
  quantity : Int
  price : Int
deriving DecidableEq, Repr

/-- Structured data extracted from one receipt (`src/types.ts` lines 14-19). -/
structure ExpenseData where
  merchant : String
  date : String
  total : Int
  items : List ExpenseItem
deriving DecidableEq, Repr

/-- One job record (`src/types.ts` lines 24-31). `data` and `error` are
nullable in the source, modelled with `Option`. -/
structure ProcessedReceipt where
  id : String
  imagePreview : String
  status : String
  data : Option ExpenseData
  saveStatus : SaveStatus
  error : Option String
deriving DecidableEq, Repr

/-- A `Partial<ProcessedReceipt>` as passed to `updateResult`
(`src/unnamed/part_001` line 59): each field is optionally present;
a present field overrides the record's field on merge, an absent field
leaves it unchanged. -/
structure ReceiptUpdate where
  id : Option String := none
  imagePreview : Option String := none
  status : Option String := none
  data : Option (Option ExpenseData) := none
  saveStatus : Option SaveStatus := none
  error : Option (Option String) := none
deriving DecidableEq, Repr

/-- The spread merge `{ ...results[index], ...update }`
(`src/unnamed/part_001` line 62). -/
def applyUpdate (r : ProcessedReceipt) (u : ReceiptUpdate) : ProcessedReceipt :=
  { id := u.id.getD r.id
    imagePreview := u.imagePreview.getD r.imagePreview
    status := u.status.getD r.status
    data := u.data.getD r.data
    saveStatus := u.saveStatus.getD r.saveStatus
    error := u.error.getD r.error }

/-- The store update of `updateResult` (`src/unnamed/part_001` lines 59-65):
`results.findIndex(r => r.id === id)` finds the first record with the given
id; if found that record is replaced by the merge, otherwise the collection
is left unchanged (silent no-op). -/
def updateResult : List ProcessedReceipt → String → ReceiptUpdate → List ProcessedReceipt
  | [], _, _ => []
  | r :: rs, id, u =>
    if r.id = id then applyUpdate r u :: rs
    else r :: updateResult rs id u

/-- `results.findIndex(r => r.id === id) !== -1`: whether a record with the
given id is present (controls whether `setProcessedReceipts` fires inside
`updateResult`). -/
def hasId (rs : List ProcessedReceipt) (id : String) : Bool :=
  rs.any (fun r => r.id == id)

theorem hasId_eq_false_iff (rs : List ProcessedReceipt) (id : String) :
    hasId rs id = false ↔ ∀ r ∈ rs, r.id ≠ id := by
  simp [hasId]

theorem updateResult_of_not_found (rs : List ProcessedReceipt) (id : String)
    (u : ReceiptUpdate) (h : ∀ r ∈ rs, r.id ≠ id) :
    updateResult rs id u = rs := by
  induction rs with
  | nil => rfl
  | cons r rs ih =>
    have hr : r.id ≠ id := h r (List.mem_cons_self r rs)
    simp only [updateResult, if_neg hr]
    rw [ih (fun x hx => h x (List.mem_cons_of_mem r hx))]

theorem updateResult_append_fresh (xs : List ProcessedReceipt)
    (r : ProcessedReceipt) (id : String) (u : ReceiptUpdate)
    (h : ∀ x ∈ xs, x.id ≠ id) (hr : r.id = id) :
    updateResult (xs ++ [r]) id u = xs ++ [applyUpdate r u] := by
  induction xs with
  | nil => simp [updateResult, hr]
  | cons x xs ih =>
    have hx : x.id ≠ id := h x (List.mem_cons_self x xs)
    simp only [List.cons_append, updateResult, if_neg hx, List.append_eq]
    rw [ih (fun y hy => h y (List.mem_cons_of_mem x hy))]

theorem hasId_append_fresh (xs : List ProcessedReceipt) (r : ProcessedReceipt)
    (id : String) (hr : r.id = id) :
    hasId (xs ++ [r]) id = true := by
  simp [hasId, List.any_append, hr]

/-- An uploaded image file: its `name` (used for id generation) and the
object URL produced by `URL.createObjectURL` (`src/unnamed/part_001`
line 44), modelled as an opaque string. -/
structure FileInput where
  name : String
  preview : String
deriving DecidableEq, Repr

instance {ε α : Type} [DecidableEq ε] [DecidableEq α] : DecidableEq (Except ε α)
  | Except.ok a, Except.ok b =>
      if h : a = b then isTrue (by rw [h])
      else isFalse (fun hh => h (Except.ok.inj hh))
  | Except.ok _, Except.error _ => isFalse (fun hh => Except.noConfusion hh)
  | Except.error _, Except.ok _ => isFalse (fun hh => Except.noConfusion hh)
  | Except.error e, Except.error e' =>
      if h : e = e' then isTrue (by rw [h])
      else isFalse (fun hh => h (Except.error.inj hh))

/-- Per-job environment: the value of `Date.now()` at record creation and
the outcomes of the three awaited collaborator calls for this job.
An `Except.error m` models the call rejecting with an error whose
`message` is `m` (`m = ""` models a falsy/absent message);
`ocr = Except.ok t` models `extractTextFromImage` resolving with text `t`. -/
structure JobOutcome where
  now : Nat
  ocr : Except String String
  gen : Except String ExpenseData
  save : Except String Unit
deriving DecidableEq, Repr

/-- Which collaborator a call event invokes. -/
inductive CallKind where
  | extractTextFromImage
  | generateExpenseJson
  | saveToGoogleSheets
deriving DecidableEq, Repr

/-- Observable events of a batch run: a `snap` is one `setProcessedReceipts`
emission (a full copy of the collection), a `call` is the start of one
collaborator invocation, tagged with the id of the job that issued it. -/
inductive Event where
  | snap (s : List ProcessedReceipt)
  | call (jobId : String) (c : CallKind)
deriving DecidableEq, Repr

/-- `file.name + Date.now()` (`src/unnamed/part_001` line 51). -/
def mkId (f : FileInput) (e : JobOutcome) : String :=
  f.name ++ toString e.now

/-- The `initialResult` record pushed for a job
(`src/unnamed/part_001` lines 50-57). -/
def initialResult (f : FileInput) (e : JobOutcome) : ProcessedReceipt :=
  { id := mkId f e
    imagePreview := f.preview
    status := "Processing OCR..."
    data := none
    saveStatus := SaveStatus.pending
    error := none }

/-- `e.message || 'An unknown error occurred.'`
(`src/unnamed/part_001` line 93). -/
def orUnknown (m : String) : String :=
  if m = "" then "An unknown error occurred." else m

/-- The update applied by the catch block
(`src/unnamed/part_001` line 95): `{ status: 'Failed', error, saveStatus }`
with `saveStatus = 'failed'`. -/
def failUpdate (msg : String) : ReceiptUpdate :=
  { status := some "Failed", error := some (some msg),
    saveStatus := some SaveStatus.failed }

/-- One invocation of the `updateResult` closure on the active batch's
array (`src/unnamed/part_001` lines 59-65): merge-update the first record
with the captured id, and emit a snapshot copy only when the id was found. -/
def updateEmit (rs : List ProcessedReceipt) (id : String) (u : ReceiptUpdate) :
    List ProcessedReceipt × List Event :=
  let rs' := updateResult rs id u
  (rs', if hasId rs id then [Event.snap rs'] else [])

/-- One iteration of the `for (const file of imageFiles)` loop
(`src/unnamed/part_001` lines 43-96): push the initial record and emit,
await extraction, then — unless a stage throws into the catch block —
update/emit for structuring, data attachment, saving, and success.
Returns the `results` array after the iteration and the events it produced. -/
def runJob (results : List ProcessedReceipt) (f : FileInput) (e : JobOutcome) :
    List ProcessedReceipt × List Event :=
  let init := initialResult f e
  let r1 := results ++ [init]
  match e.ocr with
  | Except.error msg =>
      let p := updateEmit r1 init.id (failUpdate (orUnknown msg))
      (p.1, Event.snap r1 :: Event.call init.id CallKind.extractTextFromImage :: p.2)
  | Except.ok text =>
      if text = "" then
        let p := updateEmit r1 init.id
          (failUpdate (orUnknown "Could not extract any text. The image might be unclear."))
        (p.1, Event.snap r1 :: Event.call init.id CallKind.extractTextFromImage :: p.2)
      else
        let p2 := updateEmit r1 init.id { status := some "Structuring data..." }
        match e.gen with
        | Except.error msg =>
            let p3 := updateEmit p2.1 init.id (failUpdate (orUnknown msg))
            (p3.1, Event.snap r1 :: Event.call init.id CallKind.extractTextFromImage ::
              (p2.2 ++ Event.call init.id CallKind.generateExpenseJson :: p3.2))
        | Except.ok d =>
            let p3 := updateEmit p2.1 init.id
              { status := some "Data extracted", data := some (some d) }
            let p4 := updateEmit p3.1 init.id { status := some "Saving to Google Sheets..." }
            match e.save with
            | Except.error msg =>
                let p5 := updateEmit p4.1 init.id (failUpdate (orUnknown msg))
                (p5.1, Event.snap r1 :: Event.call init.id CallKind.extractTextFromImage ::
                  (p2.2 ++ Event.call init.id CallKind.generateExpenseJson ::
                    (p3.2 ++ p4.2 ++ Event.call init.id CallKind.saveToGoogleSheets :: p5.2)))
            | Except.ok _ =>
                let p5 := updateEmit p4.1 init.id
                  { status := some "Saved successfully!", saveStatus := some SaveStatus.success }
                (p5.1, Event.snap r1 :: Event.call init.id CallKind.extractTextFromImage ::
                  (p2.2 ++ Event.call init.id CallKind.generateExpenseJson ::
                    (p3.2 ++ p4.2 ++ Event.call init.id CallKind.saveToGoogleSheets :: p5.2)))

/-- The batch loop (`src/unnamed/part_001` lines 43-97): jobs run strictly
sequentially; each input image is paired with its collaborator outcomes. -/
def processBatch : List ProcessedReceipt → List (FileInput × JobOutcome) →
    List ProcessedReceipt × List Event
  | results, [] => (results, [])
  | results, (f, e) :: rest =>
      let p := runJob results f e
      let q := processBatch p.1 rest
      (q.1, p.2 ++ q.2)

/-- `handleProcessReceipts` (`src/unnamed/part_001` lines 32-100): validate
preconditions (non-empty image set, truthy access token and spreadsheet id);
on failure alert and return without touching any state; otherwise clear the
observable collection (`setProcessedReceipts([])`, line 39) and run the batch
loop on a fresh `results` array. -/
def handleProcessReceipts (inputs : List (FileInput × JobOutcome))
    (googleAccessToken spreadsheetId : String) :
    Except String (List ProcessedReceipt × List Event) :=
  if inputs.isEmpty || googleAccessToken == "" || spreadsheetId == "" then
    Except.error "Please upload images and connect to Google Sheets."
  else
    let p := processBatch [] inputs
    Except.ok (p.1, Event.snap [] :: p.2)

/-- The snapshots contained in an event trace, in emission order. -/
def snapsOf (evs : List Event) : List (List ProcessedReceipt) :=
  evs.filterMap (fun ev => match ev with
    | Event.snap s => some s
    | Event.call _ _ => none)

/-- The observable React state `processedReceipts` after a run: on
validation failure no emission happened and the previous collection is
kept; otherwise the state is the last emitted snapshot. -/
def observableAfter (prev : List ProcessedReceipt)
    (run : Except String (List ProcessedReceipt × List Event)) :
    List ProcessedReceipt :=
  match run with
  | Except.error _ => prev
  | Except.ok p => ((snapsOf p.2).getLast?).getD prev

/-- An in-flight `updateResult` callback of a superseded batch firing after
a new batch replaced the observable collection (`src/unnamed/part_001`
lines 59-65): the closure searches the `results` array captured when its
job started; if the captured id is found there, it mutates that array and
calls `setProcessedReceipts` with a copy of it, replacing the observable
collection; only when the id is absent from the captured array is the
update a no-op. Returns the new observable collection. -/
def lateUpdateFire (captured : List ProcessedReceipt) (id : String)
    (u : ReceiptUpdate) (observable : List ProcessedReceipt) :
    List ProcessedReceipt :=
  if hasId captured id then updateResult captured id u else observable

/-- A parsed JSON value, for modelling the structuring service's handling of
the upstream response (`src/services/geminiService.ts`). -/
inductive Json where
  | null
  | bool (b : Bool)
  | num (n : Int)
  | str (s : String)
  | arr (elems : List Json)
  | obj (fields : List (String × Json))

/-- The result handling of `generateExpenseJson`
(`src/services/geminiService.ts` lines 106-113): the upstream response text
is modelled by its parse result (`none` when `JSON.parse` throws on the
trimmed text). On a parse failure the code throws the descriptive error
below; on success it returns the parsed value unchanged — the
`as ExpenseData` cast performs no runtime shape validation. -/
def generateExpenseJsonModel (parsed : Option Json) : Except String Json :=
  match parsed with
  | none =>
      Except.error "AI failed to generate a valid data structure. The receipt might be ambiguous."
  | some j => Except.ok j

/-- Field lookup in a JSON object. -/
def jsonField (fields : List (String × Json)) (key : String) : Option Json :=
  (fields.find? (fun p => p.1 == key)).map (fun p => p.2)

/-- Modelled from the spec: the expected shape of a structured result —
merchant: string, date: string, total: number, items: sequence of
objects with item: string, quantity: number at least 0, price: number at
least 0 (spec sections 3 and 6). The repository has no code performing
this validation; this definition follows the spec's words and is used to
compare the claimed behaviour with `generateExpenseJsonModel`. -/
def specItemShape (j : Json) : Bool :=
  match j with
  | Json.obj fs =>
      (match jsonField fs "item" with
       | some (Json.str _) => true
       | _ => false) &&
      (match jsonField fs "quantity" with
       | some (Json.num q) => decide (0 ≤ q)
       | _ => false) &&
      (match jsonField fs "price" with
       | some (Json.num p) => decide (0 ≤ p)
       | _ => false)
  | _ => false

/-- Modelled from the spec: shape validation of the whole structured
result (see `specItemShape`). -/
def specExpenseShape (j : Json) : Bool :=
  match j with
  | Json.obj fs =>
      (match jsonField fs "merchant" with
       | some (Json.str _) => true
       | _ => false) &&
      (match jsonField fs "date" with
       | some (Json.str _) => true
       | _ => false) &&
      (match jsonField fs "total" with
       | some (Json.num _) => true
       | _ => false) &&
      (match jsonField fs "items" with
       | some (Json.arr elems) => elems.all specItemShape
       | _ => false)
  | _ => false

/-- The sequence of states this job's own record passes through, one entry
per snapshot the job emits (derived by case analysis from the stage
pipeline of `runJob`). -/
def jobRecs (f : FileInput) (e : JobOutcome) : List ProcessedReceipt :=
  let r0 := initialResult f e
  match e.ocr with
  | Except.error m => [r0, applyUpdate r0 (failUpdate (orUnknown m))]
  | Except.ok text =>
      if text = "" then
        [r0, applyUpdate r0
          (failUpdate (orUnknown "Could not extract any text. The image might be unclear."))]
      else
        let ra := applyUpdate r0 { status := some "Structuring data..." }
        match e.gen with
        | Except.error m => [r0, ra, applyUpdate ra (failUpdate (orUnknown m))]
        | Except.ok d =>
            let rb := applyUpdate ra { status := some "Data extracted", data := some (some d) }
            let rc := applyUpdate rb { status := some "Saving to Google Sheets..." }
            match e.save with
            | Except.error m => [r0, ra, rb, rc, applyUpdate rc (failUpdate (orUnknown m))]
            | Except.ok _ =>
                [r0, ra, rb, rc, applyUpdate rc
                  { status := some "Saved successfully!", saveStatus := some SaveStatus.success }]

/-- The terminal state of a job's record at the end of its loop iteration. -/
def jobFinal (f : FileInput) (e : JobOutcome) : ProcessedReceipt :=
  let r0 := initialResult f e
  match e.ocr with
  | Except.error m => applyUpdate r0 (failUpdate (orUnknown m))
  | Except.ok text =>
      if text = "" then
        applyUpdate r0
          (failUpdate (orUnknown "Could not extract any text. The image might be unclear."))
      else
        let ra := applyUpdate r0 { status := some "Structuring data..." }
        match e.gen with
        | Except.error m => applyUpdate ra (failUpdate (orUnknown m))
        | Except.ok d =>
            let rb := applyUpdate ra { status := some "Data extracted", data := some (some d) }
            let rc := applyUpdate rb { status := some "Saving to Google Sheets..." }
            match e.save with
            | Except.error m => applyUpdate rc (failUpdate (orUnknown m))
            | Except.ok _ =>
                applyUpdate rc
                  { status := some "Saved successfully!", saveStatus := some SaveStatus.success }

/-- The events one loop iteration produces when the job's id is fresh:
the snapshots are the prior collection extended by the successive states
of this job's record, interleaved with the collaborator calls in source
order. -/
def jobEvents (pre : List ProcessedReceipt) (f : FileInput) (e : JobOutcome) :
    List Event :=
  let id := mkId f e
  let r0 := initialResult f e
  match e.ocr with
  | Except.error m =>
      [Event.snap (pre ++ [r0]), Event.call id CallKind.extractTextFromImage,
       Event.snap (pre ++ [applyUpdate r0 (failUpdate (orUnknown m))])]
  | Except.ok text =>
      if text = "" then
        [Event.snap (pre ++ [r0]), Event.call id CallKind.extractTextFromImage,
         Event.snap (pre ++ [applyUpdate r0
           (failUpdate (orUnknown "Could not extract any text. The image might be unclear."))])]
      else
        let ra := applyUpdate r0 { status := some "Structuring data..." }
        match e.gen with
        | Except.error m =>
            [Event.snap (pre ++ [r0]), Event.call id CallKind.extractTextFromImage,
             Event.snap (pre ++ [ra]), Event.call id CallKind.generateExpenseJson,
             Event.snap (pre ++ [applyUpdate ra (failUpdate (orUnknown m))])]
        | Except.ok d =>
            let rb := applyUpdate ra { status := some "Data extracted", data := some (some d) }
            let rc := applyUpdate rb { status := some "Saving to Google Sheets..." }
            match e.save with
            | Except.error m =>
                [Event.snap (pre ++ [r0]), Event.call id CallKind.extractTextFromImage,
                 Event.snap (pre ++ [ra]), Event.call id CallKind.generateExpenseJson,
                 Event.snap (pre ++ [rb]), Event.snap (pre ++ [rc]),
                 Event.call id CallKind.saveToGoogleSheets,
                 Event.snap (pre ++ [applyUpdate rc (failUpdate (orUnknown m))])]
            | Except.ok _ =>
                [Event.snap (pre ++ [r0]), Event.call id CallKind.extractTextFromImage,
                 Event.snap (pre ++ [ra]), Event.call id CallKind.generateExpenseJson,
                 Event.snap (pre ++ [rb]), Event.snap (pre ++ [rc]),
                 Event.call id CallKind.saveToGoogleSheets,
                 Event.snap (pre ++ [applyUpdate rc
                   { status := some "Saved successfully!",
                     saveStatus := some SaveStatus.success }])]

theorem updateEmit_append_fresh (pre : List ProcessedReceipt)
    (r : ProcessedReceipt) (id : String) (u : ReceiptUpdate)
    (h : ∀ x ∈ pre, x.id ≠ id) (hr : r.id = id) :
    updateEmit (pre ++ [r]) id u =
      (pre ++ [applyUpdate r u], [Event.snap (pre ++ [applyUpdate r u])]) := by
  simp [updateEmit, updateResult_append_fresh pre r id u h hr,
    hasId_append_fresh pre r id hr]

theorem initialResult_id (f : FileInput) (e : JobOutcome) :
    (initialResult f e).id = mkId f e := rfl

theorem runJob_fresh (pre : List ProcessedReceipt) (f : FileInput) (e : JobOutcome)
    (h : ∀ x ∈ pre, x.id ≠ mkId f e) :
    runJob pre f e = (pre ++ [jobFinal f e], jobEvents pre f e) := by
  cases hocr : e.ocr with
  | error m =>
      have h1 := updateEmit_append_fresh pre (initialResult f e) (mkId f e)
        (failUpdate (orUnknown m)) h rfl
      simp only [runJob, jobFinal, jobEvents, hocr, initialResult_id, h1]
  | ok text =>
      by_cases ht : text = ""
      · have h1 := updateEmit_append_fresh pre (initialResult f e) (mkId f e)
          (failUpdate (orUnknown "Could not extract any text. The image might be unclear.")) h rfl
        simp only [runJob, jobFinal, jobEvents, hocr, if_pos ht, initialResult_id, h1]
      · have h1 := updateEmit_append_fresh pre (initialResult f e) (mkId f e)
          { status := some "Structuring data..." } h rfl
        cases hgen : e.gen with
        | error m =>
            have h2 := updateEmit_append_fresh pre
              (applyUpdate (initialResult f e) { status := some "Structuring data..." })
              (mkId f e) (failUpdate (orUnknown m)) h rfl
            simp only [runJob, jobFinal, jobEvents, hocr, if_neg ht, hgen,
              initialResult_id, h1, h2, List.singleton_append]
        | ok d =>
            have h2 := updateEmit_append_fresh pre
              (applyUpdate (initialResult f e) { status := some "Structuring data..." })
              (mkId f e) { status := some "Data extracted", data := some (some d) } h rfl
            have h3 := updateEmit_append_fresh pre
              (applyUpdate
                (applyUpdate (initialResult f e) { status := some "Structuring data..." })
                { status := some "Data extracted", data := some (some d) })
              (mkId f e) { status := some "Saving to Google Sheets..." } h rfl
            cases hsave : e.save with
            | error m =>
                have h4 := updateEmit_append_fresh pre
                  (applyUpdate
                    (applyUpdate
                      (applyUpdate (initialResult f e) { status := some "Structuring data..." })
                      { status := some "Data extracted", data := some (some d) })
                    { status := some "Saving to Google Sheets..." })
                  (mkId f e) (failUpdate (orUnknown m)) h rfl
                simp only [runJob, jobFinal, jobEvents, hocr, if_neg ht, hgen, hsave,
                  initialResult_id, h1, h2, h3, h4, List.singleton_append]
                rfl
            | ok u =>
                have h4 := updateEmit_append_fresh pre
                  (applyUpdate
                    (applyUpdate
                      (applyUpdate (initialResult f e) { status := some "Structuring data..." })
                      { status := some "Data extracted", data := some (some d) })
                    { status := some "Saving to Google Sheets..." })
                  (mkId f e)
                  { status := some "Saved successfully!", saveStatus := some SaveStatus.success }
                  h rfl
                simp only [runJob, jobFinal, jobEvents, hocr, if_neg ht, hgen, hsave,
                  initialResult_id, h1, h2, h3, h4, List.singleton_append]
                rfl

/-- The field invariants claimed for every record of every snapshot
(spec section 3). -/
def fieldInv (r : ProcessedReceipt) : Prop :=
  (r.saveStatus = SaveStatus.success → r.data ≠ none ∧ r.error = none) ∧
  (r.saveStatus = SaveStatus.failed → r.error ≠ none)

/-- Position of a status label in the phase sequence of spec section 4.2
(`Created/Extracting → Structuring → Saving → Succeeded/Failed`); both
terminal labels share the last position. -/
def statusRank (s : String) : Nat :=
  if s = "Processing OCR..." then 0
  else if s = "Structuring data..." then 1
  else if s = "Data extracted" then 2
  else if s = "Saving to Google Sheets..." then 3
  else 4

theorem jobRecs_facts (f : FileInput) (e : JobOutcome) :
    ∀ r ∈ jobRecs f e,
      r.id = mkId f e ∧ r.imagePreview = f.preview ∧ fieldInv r := by
  intro r hr
  cases hocr : e.ocr with
  | error m =>
      simp only [jobRecs, hocr] at hr
      simp only [List.mem_cons, List.mem_singleton, List.not_mem_nil, or_false] at hr
      rcases hr with rfl | rfl <;>
        simp [fieldInv, initialResult, applyUpdate, failUpdate, mkId]
  | ok text =>
      by_cases ht : text = ""
      · simp only [jobRecs, hocr, if_pos ht] at hr
        simp only [List.mem_cons, List.mem_singleton, List.not_mem_nil, or_false] at hr
        rcases hr with rfl | rfl <;>
          simp [fieldInv, initialResult, applyUpdate, failUpdate, mkId]
      · cases hgen : e.gen with
        | error m =>
            simp only [jobRecs, hocr, if_neg ht, hgen] at hr
            simp only [List.mem_cons, List.mem_singleton, List.not_mem_nil, or_false] at hr
            rcases hr with rfl | rfl | rfl <;>
              simp [fieldInv, initialResult, applyUpdate, failUpdate, mkId]
        | ok d =>
            cases hsave : e.save with
            | error m =>
                simp only [jobRecs, hocr, if_neg ht, hgen, hsave] at hr
                simp only [List.mem_cons, List.mem_singleton, List.not_mem_nil, or_false] at hr
                rcases hr with rfl | rfl | rfl | rfl | rfl <;>
                  simp [fieldInv, initialResult, applyUpdate, failUpdate, mkId]
            | ok u =>
                simp only [jobRecs, hocr, if_neg ht, hgen, hsave] at hr
                simp only [List.mem_cons, List.mem_singleton, List.not_mem_nil, or_false] at hr
                rcases hr with rfl | rfl | rfl | rfl | rfl <;>
                  simp [fieldInv, initialResult, applyUpdate, failUpdate, mkId]

theorem jobFinal_mem (f : FileInput) (e : JobOutcome) :
    jobFinal f e ∈ jobRecs f e := by
  cases hocr : e.ocr with
  | error m => simp [jobRecs, jobFinal, hocr]
  | ok text =>
      by_cases ht : text = ""
      · simp [jobRecs, jobFinal, hocr, if_pos ht]
      · cases hgen : e.gen with
        | error m => simp [jobRecs, jobFinal, hocr, if_neg ht, hgen]
        | ok d =>
            cases hsave : e.save with
            | error m => simp [jobRecs, jobFinal, hocr, if_neg ht, hgen, hsave]
            | ok u => simp [jobRecs, jobFinal, hocr, if_neg ht, hgen, hsave]

theorem jobFinal_terminal (f : FileInput) (e : JobOutcome) :
    (jobFinal f e).saveStatus ≠ SaveStatus.pending := by
  cases hocr : e.ocr with
  | error m => simp [jobFinal, hocr, applyUpdate, failUpdate]
  | ok text =>
      by_cases ht : text = ""
      · simp [jobFinal, hocr, if_pos ht, applyUpdate, failUpdate]
      · cases hgen : e.gen with
        | error m => simp [jobFinal, hocr, if_neg ht, hgen, applyUpdate, failUpdate]
        | ok d =>
            cases hsave : e.save with
            | error m => simp [jobFinal, hocr, if_neg ht, hgen, hsave, applyUpdate, failUpdate]
            | ok u => simp [jobFinal, hocr, if_neg ht, hgen, hsave, applyUpdate]

theorem jobFinal_id (f : FileInput) (e : JobOutcome) :
    (jobFinal f e).id = mkId f e :=
  (jobRecs_facts f e (jobFinal f e) (jobFinal_mem f e)).1

theorem jobRecs_chain (f : FileInput) (e : JobOutcome) :
    List.Chain' (fun a b => statusRank a.status ≤ statusRank b.status) (jobRecs f e) := by
  cases hocr : e.ocr with
  | error m =>
      simp [jobRecs, hocr, applyUpdate, failUpdate, initialResult, statusRank]
  | ok text =>
      by_cases ht : text = ""
      · simp [jobRecs, hocr, if_pos ht, applyUpdate, failUpdate, initialResult, statusRank]
      · cases hgen : e.gen with
        | error m =>
            simp [jobRecs, hocr, if_neg ht, hgen, applyUpdate, failUpdate, initialResult,
              statusRank]
        | ok d =>
            cases hsave : e.save with
            | error m =>
                simp [jobRecs, hocr, if_neg ht, hgen, hsave, applyUpdate, failUpdate,
                  initialResult, statusRank]
            | ok u =>
                simp [jobRecs, hocr, if_neg ht, hgen, hsave, applyUpdate, failUpdate,
                  initialResult, statusRank]

theorem snapsOf_jobEvents (pre : List ProcessedReceipt) (f : FileInput) (e : JobOutcome) :
    snapsOf (jobEvents pre f e) = (jobRecs f e).map (fun r => pre ++ [r]) := by
  cases hocr : e.ocr with
  | error m => simp [jobEvents, jobRecs, hocr, snapsOf]
  | ok text =>
      by_cases ht : text = ""
      · simp [jobEvents, jobRecs, hocr, if_pos ht, snapsOf]
      · cases hgen : e.gen with
        | error m => simp [jobEvents, jobRecs, hocr, if_neg ht, hgen, snapsOf]
        | ok d =>
            cases hsave : e.save with
            | error m => simp [jobEvents, jobRecs, hocr, if_neg ht, hgen, hsave, snapsOf]
            | ok u => simp [jobEvents, jobRecs, hocr, if_neg ht, hgen, hsave, snapsOf]

theorem jobEvents_head (pre : List ProcessedReceipt) (f : FileInput) (e : JobOutcome) :
    (jobEvents pre f e).head? = some (Event.snap (pre ++ [initialResult f e])) := by
  cases hocr : e.ocr with
  | error m => simp [jobEvents, hocr]
  | ok text =>
      by_cases ht : text = ""
      · simp [jobEvents, hocr, if_pos ht]
      · cases hgen : e.gen with
        | error m => simp [jobEvents, hocr, if_neg ht, hgen]
        | ok d =>
            cases hsave : e.save with
            | error m => simp [jobEvents, hocr, if_neg ht, hgen, hsave]
            | ok u => simp [jobEvents, hocr, if_neg ht, hgen, hsave]

theorem jobEvents_call_id (pre : List ProcessedReceipt) (f : FileInput) (e : JobOutcome) :
    ∀ i c, Event.call i c ∈ jobEvents pre f e → i = mkId f e := by
  intro i c hm
  cases hocr : e.ocr with
  | error m =>
      simp only [jobEvents, hocr] at hm
      simp at hm
      tauto
  | ok text =>
      by_cases ht : text = ""
      · simp only [jobEvents, hocr, if_pos ht] at hm
        simp at hm
        tauto
      · cases hgen : e.gen with
        | error m =>
            simp only [jobEvents, hocr, if_neg ht, hgen] at hm
            simp at hm
            tauto
        | ok d =>
            cases hsave : e.save with
            | error m =>
                simp only [jobEvents, hocr, if_neg ht, hgen, hsave] at hm
                simp at hm
                tauto
            | ok u =>
                simp only [jobEvents, hocr, if_neg ht, hgen, hsave] at hm
                simp at hm
                tauto

theorem jobEvents_gen_call (pre : List ProcessedReceipt) (f : FileInput) (e : JobOutcome) :
    ∀ i, Event.call i CallKind.generateExpenseJson ∈ jobEvents pre f e →
      ∃ t, e.ocr = Except.ok t ∧ t ≠ "" := by
  intro i hm
  cases hocr : e.ocr with
  | error m =>
      simp only [jobEvents, hocr] at hm
      simp at hm
  | ok text =>
      by_cases ht : text = ""
      · simp only [jobEvents, hocr, if_pos ht] at hm
        simp at hm
      · exact ⟨text, rfl, ht⟩

theorem jobEvents_extract_call (pre : List ProcessedReceipt) (f : FileInput) (e : JobOutcome) :
    Event.call (mkId f e) CallKind.extractTextFromImage ∈ jobEvents pre f e := by
  cases hocr : e.ocr with
  | error m => simp [jobEvents, hocr]
  | ok text =>
      by_cases ht : text = ""
      · simp [jobEvents, hocr, if_pos ht]
      · cases hgen : e.gen with
        | error m => simp [jobEvents, hocr, if_neg ht, hgen]
        | ok d =>
            cases hsave : e.save with
            | error m => simp [jobEvents, hocr, if_neg ht, hgen, hsave]
            | ok u => simp [jobEvents, hocr, if_neg ht, hgen, hsave]

/-- The ids a batch generates, in input order. -/
def batchIds (inputs : List (FileInput × JobOutcome)) : List String :=
  inputs.map (fun p => mkId p.1 p.2)

theorem nodup_head_facts {A : List String} {m : String} {B : List String}
    (H : (A ++ m :: B).Nodup) :
    m ∉ A ∧ (A ++ [m]).Nodup ∧ ∀ b ∈ B, b ∉ A ++ [m] := by
  rcases List.nodup_append.mp H with ⟨hA, hmB, hdisj⟩
  rcases List.nodup_cons.mp hmB with ⟨hmnB, hB⟩
  have hmA : m ∉ A := fun h => hdisj h (List.mem_cons_self m B)
  refine ⟨hmA, ?_, ?_⟩
  · refine List.nodup_append.mpr ⟨hA, List.nodup_singleton m, ?_⟩
    intro a haA ham
    rcases List.mem_singleton.mp ham with rfl
    exact hmA haA
  · intro b hbB hb
    rcases List.mem_append.mp hb with hbA | hbm
    · exact hdisj hbA (List.mem_cons_of_mem m hbB)
    · rcases List.mem_singleton.mp hbm with rfl
      exact hmnB hbB

theorem nodup_step {pre : List ProcessedReceipt} {f : FileInput} {e : JobOutcome}
    {rest : List (FileInput × JobOutcome)}
    (H : (pre.map ProcessedReceipt.id ++ batchIds ((f, e) :: rest)).Nodup) :
    (∀ x ∈ pre, x.id ≠ mkId f e) ∧
      ((pre ++ [jobFinal f e]).map ProcessedReceipt.id ++ batchIds rest).Nodup := by
  have Hc : (pre.map ProcessedReceipt.id ++ mkId f e :: batchIds rest).Nodup := by
    simpa [batchIds] using H
  constructor
  · intro x hx heq
    rcases List.nodup_append.mp Hc with ⟨h1, h2, hdisj⟩
    have hxid : x.id ∈ pre.map ProcessedReceipt.id := List.mem_map_of_mem _ hx
    exact hdisj hxid (by simp [heq])
  · have : (pre ++ [jobFinal f e]).map ProcessedReceipt.id =
        pre.map ProcessedReceipt.id ++ [mkId f e] := by
      simp [jobFinal_id]
    rw [this, List.append_assoc]
    simpa using Hc

theorem processBatch_cons (pre : List ProcessedReceipt) (f : FileInput) (e : JobOutcome)
    (rest : List (FileInput × JobOutcome)) (hfresh : ∀ x ∈ pre, x.id ≠ mkId f e) :
    processBatch pre ((f, e) :: rest) =
      ((processBatch (pre ++ [jobFinal f e]) rest).1,
        jobEvents pre f e ++ (processBatch (pre ++ [jobFinal f e]) rest).2) := by
  simp only [processBatch]
  rw [runJob_fresh pre f e hfresh]

theorem processBatch_final (inputs : List (FileInput × JobOutcome)) :
    ∀ pre : List ProcessedReceipt,
      (pre.map ProcessedReceipt.id ++ batchIds inputs).Nodup →
      (processBatch pre inputs).1 = pre ++ inputs.map (fun p => jobFinal p.1 p.2) := by
  induction inputs with
  | nil => intro pre _; simp [processBatch]
  | cons p rest ih =>
      intro pre H
      obtain ⟨f, e⟩ := p
      obtain ⟨hfresh, H'⟩ := nodup_step H
      rw [processBatch_cons pre f e rest hfresh]
      simp only
      rw [ih (pre ++ [jobFinal f e]) H']
      simp

theorem snapsOf_append (a b : List Event) :
    snapsOf (a ++ b) = snapsOf a ++ snapsOf b :=
  List.filterMap_append a b _

theorem processBatch_snaps_shape (inputs : List (FileInput × JobOutcome)) :
    ∀ pre : List ProcessedReceipt,
      (pre.map ProcessedReceipt.id ++ batchIds inputs).Nodup →
      ∀ s ∈ snapsOf (processBatch pre inputs).2,
        ∃ k, ∃ hk : k < inputs.length, ∃ r ∈
            jobRecs (inputs.get ⟨k, hk⟩).1 (inputs.get ⟨k, hk⟩).2,
          s = pre ++ (inputs.take k).map (fun p => jobFinal p.1 p.2) ++ [r] := by
  induction inputs with
  | nil => intro pre _ s hs; simp [processBatch, snapsOf] at hs
  | cons p rest ih =>
      intro pre H s hs
      obtain ⟨f, e⟩ := p
      obtain ⟨hfresh, H'⟩ := nodup_step H
      rw [processBatch_cons pre f e rest hfresh] at hs
      simp only [snapsOf_append, List.mem_append] at hs
      rcases hs with hs | hs
      · rw [snapsOf_jobEvents] at hs
        rcases List.mem_map.mp hs with ⟨r, hr, rfl⟩
        exact ⟨0, Nat.succ_pos _, r, hr, by simp⟩
      · rcases ih (pre ++ [jobFinal f e]) H' s hs with ⟨k, hk, r, hr, rfl⟩
        refine ⟨k + 1, Nat.succ_lt_succ hk, r, ?_, ?_⟩
        · simp only [List.get_cons_succ] at hr ⊢; exact hr
        · simp [List.append_assoc]

theorem processBatch_calls (inputs : List (FileInput × JobOutcome)) :
    ∀ pre : List ProcessedReceipt,
      (pre.map ProcessedReceipt.id ++ batchIds inputs).Nodup →
      ∀ i c, Event.call i c ∈ (processBatch pre inputs).2 →
        ∃ k, ∃ hk : k < inputs.length,
          i = mkId (inputs.get ⟨k, hk⟩).1 (inputs.get ⟨k, hk⟩).2 ∧
          (c = CallKind.generateExpenseJson →
            ∃ t, (inputs.get ⟨k, hk⟩).2.ocr = Except.ok t ∧ t ≠ "") := by
  induction inputs with
  | nil => intro pre _ i c hm; simp [processBatch] at hm
  | cons p rest ih =>
      intro pre H i c hm
      obtain ⟨f, e⟩ := p
      obtain ⟨hfresh, H'⟩ := nodup_step H
      rw [processBatch_cons pre f e rest hfresh] at hm
      simp only [List.mem_append] at hm
      rcases hm with hm | hm
      · refine ⟨0, Nat.succ_pos _, jobEvents_call_id pre f e i c hm, ?_⟩
        rintro rfl
        exact jobEvents_gen_call pre f e i hm
      · rcases ih (pre ++ [jobFinal f e]) H' i c hm with ⟨k, hk, hi, hgen⟩
        exact ⟨k + 1, Nat.succ_lt_succ hk, hi, hgen⟩

theorem processBatch_extract_call (inputs : List (FileInput × JobOutcome)) :
    ∀ pre : List ProcessedReceipt,
      (pre.map ProcessedReceipt.id ++ batchIds inputs).Nodup →
      ∀ k, ∀ hk : k < inputs.length,
        Event.call (mkId (inputs.get ⟨k, hk⟩).1 (inputs.get ⟨k, hk⟩).2)
          CallKind.extractTextFromImage ∈ (processBatch pre inputs).2 := by
  induction inputs with
  | nil => intro pre _ k hk; exact absurd hk (Nat.not_lt_zero k)
  | cons p rest ih =>
      intro pre H k hk
      obtain ⟨f, e⟩ := p
      obtain ⟨hfresh, H'⟩ := nodup_step H
      rw [processBatch_cons pre f e rest hfresh]
      simp only [List.mem_append]
      cases k with
      | zero => exact Or.inl (jobEvents_extract_call pre f e)
      | succ k =>
          exact Or.inr (ih (pre ++ [jobFinal f e]) H' k (Nat.lt_of_succ_lt_succ hk))

theorem processBatch_jobEvents_sublist (inputs : List (FileInput × JobOutcome)) :
    ∀ pre : List ProcessedReceipt,
      (pre.map ProcessedReceipt.id ++ batchIds inputs).Nodup →
      ∀ k, ∀ hk : k < inputs.length,
        (jobEvents (pre ++ (inputs.take k).map (fun p => jobFinal p.1 p.2))
            (inputs.get ⟨k, hk⟩).1 (inputs.get ⟨k, hk⟩).2).Sublist
          (processBatch pre inputs).2 := by
  induction inputs with
  | nil => intro pre _ k hk; exact absurd hk (Nat.not_lt_zero k)
  | cons p rest ih =>
      intro pre H k hk
      obtain ⟨f, e⟩ := p
      obtain ⟨hfresh, H'⟩ := nodup_step H
      rw [processBatch_cons pre f e rest hfresh]
      simp only
      cases k with
      | zero =>
          simp only [List.take_zero, List.map_nil, List.append_nil, List.get_cons_zero]
          exact List.sublist_append_left (jobEvents pre f e)
            (processBatch (pre ++ [jobFinal f e]) rest).2
      | succ k =>
          have hsub := ih (pre ++ [jobFinal f e]) H' k (Nat.lt_of_succ_lt_succ hk)
          have hshape : (pre ++ [jobFinal f e]) ++ (rest.take k).map (fun p => jobFinal p.1 p.2) =
              pre ++ (((f, e) :: rest).take (k + 1)).map (fun p => jobFinal p.1 p.2) := by
            simp [List.append_assoc]
          rw [hshape] at hsub
          exact hsub.trans (List.sublist_append_right _ _)

/-- The monotonicity relation between two successive snapshots claimed by
the spec: any record of the first and any record of the second with the
same id have non-decreasing status rank. -/
def rankStep (s s' : List ProcessedReceipt) : Prop :=
  ∀ r ∈ s, ∀ r' ∈ s', r.id = r'.id → statusRank r.status ≤ statusRank r'.status

theorem rankStep_snoc (pre : List ProcessedReceipt)
    (hpre : (pre.map ProcessedReceipt.id).Nodup) (a b : ProcessedReceipt)
    (hafresh : a.id ∉ pre.map ProcessedReceipt.id) (hab : a.id = b.id)
    (hrank : statusRank a.status ≤ statusRank b.status) :
    rankStep (pre ++ [a]) (pre ++ [b]) := by
  intro r hr r' hr' hid
  rcases List.mem_append.mp hr with hr | hr
  · rcases List.mem_append.mp hr' with hr' | hr'
    · have heq : r = r' := List.inj_on_of_nodup_map hpre hr hr' hid
      rw [heq]
    · rcases List.mem_singleton.mp hr' with rfl
      exfalso
      apply hafresh
      rw [hab, ← hid]
      exact List.mem_map_of_mem ProcessedReceipt.id hr
  · rcases List.mem_singleton.mp hr with rfl
    rcases List.mem_append.mp hr' with hr' | hr'
    · exfalso
      apply hafresh
      rw [hid]
      exact List.mem_map_of_mem ProcessedReceipt.id hr'
    · rcases List.mem_singleton.mp hr' with rfl
      exact hrank

theorem rankStep_grow (s : List ProcessedReceipt)
    (hs : (s.map ProcessedReceipt.id).Nodup) (c : ProcessedReceipt)
    (hc : c.id ∉ s.map ProcessedReceipt.id) :
    rankStep s (s ++ [c]) := by
  intro r hr r' hr' hid
  rcases List.mem_append.mp hr' with hr' | hr'
  · have heq : r = r' := List.inj_on_of_nodup_map hs hr hr' hid
    rw [heq]
  · rcases List.mem_singleton.mp hr' with rfl
    exfalso
    apply hc
    rw [← hid]
    exact List.mem_map_of_mem ProcessedReceipt.id hr

theorem jobSnaps_chain (pre : List ProcessedReceipt) (f : FileInput) (e : JobOutcome)
    (hpre : (pre.map ProcessedReceipt.id).Nodup)
    (hfresh : ∀ x ∈ pre, x.id ≠ mkId f e) :
    List.Chain' rankStep (snapsOf (jobEvents pre f e)) := by
  have hafresh : ∀ a : ProcessedReceipt, a.id = mkId f e →
      a.id ∉ pre.map ProcessedReceipt.id := by
    intro a ha hmem
    rcases List.mem_map.mp hmem with ⟨x, hx, hxid⟩
    exact hfresh x hx (hxid.trans ha)
  have step : ∀ a b : ProcessedReceipt, a.id = mkId f e → b.id = mkId f e →
      statusRank a.status ≤ statusRank b.status →
      rankStep (pre ++ [a]) (pre ++ [b]) := by
    intro a b ha hb hr
    exact rankStep_snoc pre hpre a b (hafresh a ha) (ha.trans hb.symm) hr
  rw [snapsOf_jobEvents, List.chain'_map]
  cases hocr : e.ocr with
  | error m =>
      simp only [jobRecs, hocr, List.chain'_cons, List.chain'_singleton, and_true]
      exact step _ _ rfl rfl (by simp [statusRank, applyUpdate, initialResult, failUpdate])
  | ok text =>
      by_cases ht : text = ""
      · simp only [jobRecs, hocr, if_pos ht, List.chain'_cons, List.chain'_singleton, and_true]
        exact step _ _ rfl rfl (by simp [statusRank, applyUpdate, initialResult, failUpdate])
      · cases hgen : e.gen with
        | error m =>
            simp only [jobRecs, hocr, if_neg ht, hgen, List.chain'_cons,
              List.chain'_singleton, and_true]
            exact ⟨step _ _ rfl rfl (by simp [statusRank, applyUpdate, initialResult, failUpdate]), step _ _ rfl rfl (by simp [statusRank, applyUpdate, initialResult, failUpdate])⟩
        | ok d =>
            cases hsave : e.save with
            | error m =>
                simp only [jobRecs, hocr, if_neg ht, hgen, hsave, List.chain'_cons,
                  List.chain'_singleton, and_true]
                exact ⟨step _ _ rfl rfl (by simp [statusRank, applyUpdate, initialResult, failUpdate]), step _ _ rfl rfl (by simp [statusRank, applyUpdate, initialResult, failUpdate]),
                  step _ _ rfl rfl (by simp [statusRank, applyUpdate, initialResult, failUpdate]), step _ _ rfl rfl (by simp [statusRank, applyUpdate, initialResult, failUpdate])⟩
            | ok u =>
                simp only [jobRecs, hocr, if_neg ht, hgen, hsave, List.chain'_cons,
                  List.chain'_singleton, and_true]
                exact ⟨step _ _ rfl rfl (by simp [statusRank, applyUpdate, initialResult, failUpdate]), step _ _ rfl rfl (by simp [statusRank, applyUpdate, initialResult, failUpdate]),
                  step _ _ rfl rfl (by simp [statusRank, applyUpdate, initialResult, failUpdate]), step _ _ rfl rfl (by simp [statusRank, applyUpdate, initialResult, failUpdate])⟩

theorem jobSnaps_head (pre : List ProcessedReceipt) (f : FileInput) (e : JobOutcome) :
    (snapsOf (jobEvents pre f e)).head? = some (pre ++ [initialResult f e]) := by
  rw [snapsOf_jobEvents]
  cases hocr : e.ocr with
  | error m => simp [jobRecs, hocr]
  | ok text =>
      by_cases ht : text = ""
      · simp [jobRecs, hocr, if_pos ht]
      · cases hgen : e.gen with
        | error m => simp [jobRecs, hocr, if_neg ht, hgen]
        | ok d =>
            cases hsave : e.save with
            | error m => simp [jobRecs, hocr, if_neg ht, hgen, hsave]
            | ok u => simp [jobRecs, hocr, if_neg ht, hgen, hsave]

theorem jobSnaps_getLast (pre : List ProcessedReceipt) (f : FileInput) (e : JobOutcome) :
    (snapsOf (jobEvents pre f e)).getLast? = some (pre ++ [jobFinal f e]) := by
  rw [snapsOf_jobEvents]
  cases hocr : e.ocr with
  | error m => simp [jobRecs, jobFinal, hocr, List.getLast?]
  | ok text =>
      by_cases ht : text = ""
      · simp [jobRecs, jobFinal, hocr, if_pos ht, List.getLast?]
      · cases hgen : e.gen with
        | error m => simp [jobRecs, jobFinal, hocr, if_neg ht, hgen, List.getLast?]
        | ok d =>
            cases hsave : e.save with
            | error m => simp [jobRecs, jobFinal, hocr, if_neg ht, hgen, hsave, List.getLast?]
            | ok u => simp [jobRecs, jobFinal, hocr, if_neg ht, hgen, hsave, List.getLast?]

theorem head?_append_some {α : Type} {l₁ l₂ : List α} {a : α}
    (h : l₁.head? = some a) : (l₁ ++ l₂).head? = some a := by
  cases l₁ with
  | nil => exact absurd h (by simp)
  | cons x xs => simpa using h

theorem processBatch_snaps_head (pre : List ProcessedReceipt)
    (q : FileInput × JobOutcome) (rest : List (FileInput × JobOutcome))
    (hfresh : ∀ x ∈ pre, x.id ≠ mkId q.1 q.2) :
    (snapsOf (processBatch pre (q :: rest)).2).head? =
      some (pre ++ [initialResult q.1 q.2]) := by
  obtain ⟨f, e⟩ := q
  rw [processBatch_cons pre f e rest hfresh]
  simp only
  rw [snapsOf_append]
  exact head?_append_some (jobSnaps_head pre f e)

theorem processBatch_chain (inputs : List (FileInput × JobOutcome)) :
    ∀ pre : List ProcessedReceipt,
      (pre.map ProcessedReceipt.id ++ batchIds inputs).Nodup →
      List.Chain' rankStep (snapsOf (processBatch pre inputs).2) := by
  induction inputs with
  | nil => intro pre _; simp [processBatch, snapsOf]
  | cons p rest ih =>
      intro pre H
      obtain ⟨f, e⟩ := p
      obtain ⟨hfresh, H'⟩ := nodup_step H
      have hpre : (pre.map ProcessedReceipt.id).Nodup := (List.nodup_append.mp H).1
      rw [processBatch_cons pre f e rest hfresh]
      simp only
      rw [snapsOf_append]
      apply List.chain'_append.mpr
      refine ⟨jobSnaps_chain pre f e hpre hfresh, ih _ H', ?_⟩
      intro x hx y hy
      rw [jobSnaps_getLast pre f e, Option.mem_def, Option.some.injEq] at hx
      subst hx
      cases rest with
      | nil => simp [processBatch, snapsOf] at hy
      | cons q rest' =>
          obtain ⟨hfresh', _⟩ := nodup_step H'
          rw [processBatch_snaps_head _ q rest' hfresh', Option.mem_def,
            Option.some.injEq] at hy
          subst hy
          apply rankStep_grow
          · exact (List.nodup_append.mp H').1
          · have Hc : ((pre ++ [jobFinal f e]).map ProcessedReceipt.id ++
                mkId q.1 q.2 :: batchIds rest').Nodup := by
              simpa [batchIds] using H'
            exact (nodup_head_facts Hc).1

theorem updateResult_map_idpreview (rs : List ProcessedReceipt) (id : String)
    (u : ReceiptUpdate) (hid : u.id = none) (hprev : u.imagePreview = none) :
    (updateResult rs id u).map (fun r => (r.id, r.imagePreview)) =
      rs.map (fun r => (r.id, r.imagePreview)) := by
  induction rs with
  | nil => rfl
  | cons r rs ih =>
      by_cases h : r.id = id
      · simp [updateResult, if_pos h, applyUpdate, hid, hprev]
      · simp only [updateResult, if_neg h, List.map_cons]
        rw [ih]

theorem runJob_ids (pre : List ProcessedReceipt) (f : FileInput) (e : JobOutcome) :
    ((runJob pre f e).1).map (fun r => (r.id, r.imagePreview)) =
      pre.map (fun r => (r.id, r.imagePreview)) ++ [(mkId f e, f.preview)] := by
  cases hocr : e.ocr with
  | error m =>
      simp only [runJob, updateEmit, hocr]
      rw [updateResult_map_idpreview _ _ _ rfl rfl]
      simp [initialResult]
  | ok text =>
      by_cases ht : text = ""
      · simp only [runJob, updateEmit, hocr, if_pos ht]
        rw [updateResult_map_idpreview _ _ _ rfl rfl]
        simp [initialResult]
      · cases hgen : e.gen with
        | error m =>
            simp only [runJob, updateEmit, hocr, if_neg ht, hgen]
            rw [updateResult_map_idpreview _ _ _ rfl rfl,
              updateResult_map_idpreview _ _ _ rfl rfl]
            simp [initialResult]
        | ok d =>
            cases hsave : e.save with
            | error m =>
                simp only [runJob, updateEmit, hocr, if_neg ht, hgen, hsave]
                rw [updateResult_map_idpreview _ _ _ rfl rfl,
                  updateResult_map_idpreview _ _ _ rfl rfl,
                  updateResult_map_idpreview _ _ _ rfl rfl,
                  updateResult_map_idpreview _ _ _ rfl rfl]
                simp [initialResult]
            | ok u =>
                simp only [runJob, updateEmit, hocr, if_neg ht, hgen, hsave]
                rw [updateResult_map_idpreview _ _ _ rfl rfl,
                  updateResult_map_idpreview _ _ _ rfl rfl,
                  updateResult_map_idpreview _ _ _ rfl rfl,
                  updateResult_map_idpreview _ _ _ rfl rfl]
                simp [initialResult]

theorem processBatch_ids (inputs : List (FileInput × JobOutcome)) :
    ∀ pre : List ProcessedReceipt,
      ((processBatch pre inputs).1).map (fun r => (r.id, r.imagePreview)) =
        pre.map (fun r => (r.id, r.imagePreview)) ++
          inputs.map (fun p => (mkId p.1 p.2, p.1.preview)) := by
  induction inputs with
  | nil => intro pre; simp [processBatch]
  | cons p rest ih =>
      intro pre
      obtain ⟨f, e⟩ := p
      simp only [processBatch]
      rw [ih (runJob pre f e).1, runJob_ids]
      simp [List.append_assoc]

theorem string_append_inj {a b c d : String} (h : a ++ b = c ++ d)
    (hlen : b.length = d.length) : a = c ∧ b = d := by
  have hd : a.data ++ b.data = c.data ++ d.data := congrArg String.data h
  obtain ⟨h1, h2⟩ := List.append_inj' hd hlen
  exact ⟨String.ext h1, String.ext h2⟩

theorem batchIds_nodup_of_distinct (inputs : List (FileInput × JobOutcome))
    (hlen : ∃ L, ∀ p ∈ inputs, (toString p.2.now).length = L)
    (hdist : inputs.Pairwise (fun p q =>
      (p.1.name, toString p.2.now) ≠ (q.1.name, toString q.2.now))) :
    (batchIds inputs).Nodup := by
  obtain ⟨L, hL⟩ := hlen
  have hpw : List.Pairwise (fun a b => a ≠ b)
      (inputs.map (fun p => mkId p.1 p.2)) := by
    rw [List.pairwise_map]
    refine List.Pairwise.imp_of_mem ?_ hdist
    intro p q hp hq hpq heq
    simp only [mkId] at heq
    have h1 : (toString p.2.now).length = (toString q.2.now).length := by
      rw [hL p hp, hL q hq]
    obtain ⟨hn, ht⟩ := string_append_inj heq h1
    exact hpq (by rw [hn, ht])
  exact hpw

theorem updateResult_first_match (pre : List ProcessedReceipt) (r : ProcessedReceipt)
    (post : List ProcessedReceipt) (id : String) (u : ReceiptUpdate)
    (hpre : ∀ x ∈ pre, x.id ≠ id) (hr : r.id = id) :
    updateResult (pre ++ r :: post) id u = pre ++ applyUpdate r u :: post := by
  induction pre with
  | nil => simp [updateResult, hr]
  | cons x xs ih =>
      have hx : x.id ≠ id := hpre x (List.mem_cons_self x xs)
      simp only [List.cons_append, updateResult, if_neg hx, List.append_eq]
      rw [ih (fun y hy => hpre y (List.mem_cons_of_mem x hy))]

theorem getD_self_getD {α : Type} (o : Option α) (a : α) :
    o.getD (o.getD a) = o.getD a := by
  cases o <;> rfl

theorem applyUpdate_idem (r : ProcessedReceipt) (u : ReceiptUpdate) :
    applyUpdate (applyUpdate r u) u = applyUpdate r u := by
  simp [applyUpdate, getD_self_getD]

/-- Claim C7: a partial merge-update whose id matches no record is a silent
no-op (total function, collection exactly unchanged, no record created);
when the id matches, exactly the first matching record is replaced by the
merge and every field not named in the partial update keeps its value. -/
theorem C7_update_noop_and_frame (rs : List ProcessedReceipt) (id : String)
    (u : ReceiptUpdate) :
    ((∀ r ∈ rs, r.id ≠ id) → updateResult rs id u = rs) ∧
    (∀ pre r post, rs = pre ++ r :: post → (∀ x ∈ pre, x.id ≠ id) → r.id = id →
      updateResult rs id u = pre ++ applyUpdate r u :: post) ∧
    (∀ r : ProcessedReceipt,
      (u.id = none → (applyUpdate r u).id = r.id) ∧
      (u.imagePreview = none → (applyUpdate r u).imagePreview = r.imagePreview) ∧
      (u.status = none → (applyUpdate r u).status = r.status) ∧
      (u.data = none → (applyUpdate r u).data = r.data) ∧
      (u.saveStatus = none → (applyUpdate r u).saveStatus = r.saveStatus) ∧
      (u.error = none → (applyUpdate r u).error = r.error)) := by
  refine ⟨updateResult_of_not_found rs id u, ?_, ?_⟩
  · intro pre r post hrs hpre hr
    rw [hrs]
    exact updateResult_first_match pre r post id u hpre hr
  · intro r
    refine ⟨?_, ?_, ?_, ?_, ?_, ?_⟩ <;> intro h <;> simp [applyUpdate, h]

theorem C7_witness :
    (updateResult
        [{ id := "a", imagePreview := "p", status := "s", data := none,
           saveStatus := SaveStatus.pending, error := none }] "b"
        { status := some "X" } =
      [{ id := "a", imagePreview := "p", status := "s", data := none,
         saveStatus := SaveStatus.pending, error := none }]) ∧
    (updateResult
        [{ id := "a", imagePreview := "p", status := "s", data := none,
           saveStatus := SaveStatus.pending, error := none }] "a"
        { status := some "X" } =
      [] ++ applyUpdate
        { id := "a", imagePreview := "p", status := "s", data := none,
          saveStatus := SaveStatus.pending, error := none }
        { status := some "X" } :: []) ∧
    (applyUpdate
        { id := "a", imagePreview := "p", status := "s", data := none,
          saveStatus := SaveStatus.pending, error := none }
        { status := some "X" }).data =
      ({ id := "a", imagePreview := "p", status := "s", data := none,
         saveStatus := SaveStatus.pending, error := none } : ProcessedReceipt).data :=
  ⟨(C7_update_noop_and_frame _ "b" _).1 (by decide),
   (C7_update_noop_and_frame _ "a" _).2.1 [] _ [] rfl (by simp) rfl,
   ((C7_update_noop_and_frame [] "a" { status := some "X" }).2.2 _).2.2.2.1 rfl⟩

/-- Claim C10 (amended): provided the store's records have pairwise
distinct ids (the documented store invariant), applying one and the same
partial update twice in succession yields the same collection as applying
it once. Without that proviso the claim fails (see the counterexample):
with two records sharing an id and an update that rewrites the id, the
second application hits the second duplicate. -/
theorem C10_idempotent_of_nodup (rs : List ProcessedReceipt) (id : String)
    (u : ReceiptUpdate) (h : (rs.map ProcessedReceipt.id).Nodup) :
    updateResult (updateResult rs id u) id u = updateResult rs id u := by
  induction rs with
  | nil => rfl
  | cons r rs ih =>
      simp only [List.map_cons] at h
      rcases List.nodup_cons.mp h with ⟨hrn, hrs⟩
      by_cases hr : r.id = id
      · simp only [updateResult, if_pos hr]
        by_cases hr2 : (applyUpdate r u).id = id
        · simp only [updateResult, if_pos hr2, applyUpdate_idem]
        · simp only [updateResult, if_neg hr2]
          rw [updateResult_of_not_found]
          intro x hx heq
          exact hrn (by rw [hr, ← heq]; exact List.mem_map_of_mem ProcessedReceipt.id hx)
      · simp only [updateResult, if_neg hr]
        rw [ih hrs]

theorem C10_counterexample :
    updateResult
        (updateResult
          [{ id := "a", imagePreview := "p", status := "s", data := none,
             saveStatus := SaveStatus.pending, error := none },
           { id := "a", imagePreview := "q", status := "t", data := none,
             saveStatus := SaveStatus.pending, error := none }] "a"
          { id := some "b", status := some "X" }) "a"
        { id := some "b", status := some "X" } ≠
      updateResult
        [{ id := "a", imagePreview := "p", status := "s", data := none,
           saveStatus := SaveStatus.pending, error := none },
         { id := "a", imagePreview := "q", status := "t", data := none,
           saveStatus := SaveStatus.pending, error := none }] "a"
        { id := some "b", status := some "X" } := by
  decide

theorem C10_witness :
    (([{ id := "a", imagePreview := "p", status := "s", data := none,
         saveStatus := SaveStatus.pending, error := none }] :
        List ProcessedReceipt).map ProcessedReceipt.id).Nodup ∧
    updateResult
        (updateResult
          [{ id := "a", imagePreview := "p", status := "s", data := none,
             saveStatus := SaveStatus.pending, error := none }] "a"
          { id := some "b", status := some "X" }) "a"
        { id := some "b", status := some "X" } =
      updateResult
        [{ id := "a", imagePreview := "p", status := "s", data := none,
           saveStatus := SaveStatus.pending, error := none }] "a"
        { id := some "b", status := some "X" } :=
  ⟨by decide, C10_idempotent_of_nodup _ "a" _ (by decide)⟩

theorem C9_counterexample :
    generateExpenseJsonModel (some (Json.arr [])) = Except.ok (Json.arr []) ∧
    specExpenseShape (Json.arr []) = false :=
  ⟨rfl, rfl⟩

/-- Claim C9 (amended): the structuring stage fails exactly when the
upstream response does not parse as JSON, and then with the descriptive
error message rather than the raw parse failure; any successfully parsed
value — shape-valid or not — is returned unchanged by the
`as ExpenseData` cast and advances the job to the Saving stage. The shape
validation asserted by the claim does not exist in the code (see the
counterexample). -/
theorem C9_parse_only (parsed : Option Json) :
    ((∃ j, generateExpenseJsonModel parsed = Except.ok j) ↔ (∃ j, parsed = some j)) ∧
    (parsed = none → generateExpenseJsonModel parsed =
      Except.error
        "AI failed to generate a valid data structure. The receipt might be ambiguous.") ∧
    (∀ j, parsed = some j → generateExpenseJsonModel parsed = Except.ok j) := by
  cases parsed <;> simp [generateExpenseJsonModel]

theorem C9_witness :
    generateExpenseJsonModel (some (Json.num 3)) = Except.ok (Json.num 3) ∧
    generateExpenseJsonModel none =
      Except.error
        "AI failed to generate a valid data structure. The receipt might be ambiguous." :=
  ⟨(C9_parse_only (some (Json.num 3))).2.2 (Json.num 3) rfl,
   (C9_parse_only none).2.1 rfl⟩

/-- Claim C8: when the batch preconditions are unmet (empty image set,
missing token or missing spreadsheet id), the orchestrator fails with the
validation alert before creating any job: the run produces no events
(hence no record and no collaborator call) and the observable collection
is exactly the previous one. -/
theorem C8_validation_fail_fast (inputs : List (FileInput × JobOutcome))
    (tok sheet : String) (prev : List ProcessedReceipt)
    (h : inputs = [] ∨ tok = "" ∨ sheet = "") :
    handleProcessReceipts inputs tok sheet =
      Except.error "Please upload images and connect to Google Sheets." ∧
    observableAfter prev (handleProcessReceipts inputs tok sheet) = prev := by
  have hcond : (inputs.isEmpty || tok == "" || sheet == "") = true := by
    rcases h with h | h | h <;> simp [h]
  constructor
  · simp [handleProcessReceipts, hcond]
  · simp [observableAfter, handleProcessReceipts, hcond]

theorem C8_witness :
    (handleProcessReceipts [] "tok" "sheet" =
      Except.error "Please upload images and connect to Google Sheets.") ∧
    observableAfter
        [{ id := "a", imagePreview := "p", status := "s", data := none,
           saveStatus := SaveStatus.pending, error := none }]
        (handleProcessReceipts [] "tok" "sheet") =
      [{ id := "a", imagePreview := "p", status := "s", data := none,
         saveStatus := SaveStatus.pending, error := none }] :=
  C8_validation_fail_fast [] "tok" "sheet" _ (Or.inl rfl)

/-- Claim C4, evaluated on the code at the failing input: a valid new
batch does clear the observable collection first (its first emission is
the empty snapshot), but a pending `updateResult` callback of a
superseded batch evaluates its no-op check against the `results` array
captured by its closure — where its id is still present — so the late
update is applied and the superseded batch's records are re-emitted as
the observable collection instead of being dropped. -/
theorem C4_late_update_leaks :
    ((handleProcessReceipts
        [({ name := "b", preview := "q" },
          { now := 1, ocr := Except.error "x",
            gen := Except.ok { merchant := "", date := "", total := 0, items := [] },
            save := Except.ok () })] "tok" "sheet").toOption.map
      (fun p => p.2.head?)) = some (some (Event.snap [])) ∧
    lateUpdateFire
        [{ id := "a0", imagePreview := "p", status := "Saving to Google Sheets...",
           data := some { merchant := "M", date := "D", total := 5, items := [] },
           saveStatus := SaveStatus.pending, error := none }] "a0"
        (failUpdate "late failure") [] =
      [{ id := "a0", imagePreview := "p", status := "Failed",
         data := some { merchant := "M", date := "D", total := 5, items := [] },
         saveStatus := SaveStatus.failed, error := some "late failure" }] ∧
    lateUpdateFire
        [{ id := "a0", imagePreview := "p", status := "Saving to Google Sheets...",
           data := some { merchant := "M", date := "D", total := 5, items := [] },
           saveStatus := SaveStatus.pending, error := none }] "a0"
        (failUpdate "late failure") [] ≠ [] := by
  refine ⟨?_, ?_, ?_⟩ <;> decide

/-- Claim C6 (amended): for every batch with valid preconditions the final
collection has exactly one record per input image, in input order (record
k carries input k's generated id and preview, and no update ever touches
an id or preview). The ids are pairwise distinct provided the rendered
timestamps all have the same length (as real `Date.now()` values within
one run do) and no two inputs share both filename and timestamp;
without that proviso id generation `file.name + Date.now()` collides
(see the counterexample). -/
theorem C6_batch_shape (inputs : List (FileInput × JobOutcome)) (tok sheet : String)
    (hne : inputs ≠ []) (htok : tok ≠ "") (hsheet : sheet ≠ "") :
    ∃ final events,
      handleProcessReceipts inputs tok sheet = Except.ok (final, events) ∧
      final.length = inputs.length ∧
      final.map (fun r => (r.id, r.imagePreview)) =
        inputs.map (fun p => (mkId p.1 p.2, p.1.preview)) ∧
      ((∃ L, ∀ p ∈ inputs, (toString p.2.now).length = L) →
        inputs.Pairwise (fun p q =>
          (p.1.name, toString p.2.now) ≠ (q.1.name, toString q.2.now)) →
        (final.map ProcessedReceipt.id).Nodup) := by
  have hcond : (inputs.isEmpty || tok == "" || sheet == "") = false := by
    simp [hne, htok, hsheet]
  refine ⟨(processBatch [] inputs).1, Event.snap [] :: (processBatch [] inputs).2, ?_, ?_, ?_, ?_⟩
  · simp [handleProcessReceipts, hcond]
  · have h := processBatch_ids inputs []
    simp only [List.map_nil, List.nil_append] at h
    have := congrArg List.length h
    simpa using this
  · have h := processBatch_ids inputs []
    simpa using h
  · intro hlen hdist
    have h := processBatch_ids inputs []
    simp only [List.map_nil, List.nil_append] at h
    have hids : (processBatch [] inputs).1.map ProcessedReceipt.id =
        inputs.map (fun p => mkId p.1 p.2) := by
      have := congrArg (List.map Prod.fst) h
      simpa [List.map_map, Function.comp] using this
    rw [show List.map ProcessedReceipt.id (processBatch [] inputs).1 =
      (processBatch [] inputs).1.map ProcessedReceipt.id from rfl, hids]
    exact batchIds_nodup_of_distinct inputs hlen hdist

theorem C6_counterexample :
    (handleProcessReceipts
        [({ name := "a", preview := "p0" },
          { now := 0, ocr := Except.error "x",
            gen := Except.ok { merchant := "", date := "", total := 0, items := [] },
            save := Except.ok () }),
         ({ name := "a", preview := "p1" },
          { now := 0, ocr := Except.error "x",
            gen := Except.ok { merchant := "", date := "", total := 0, items := [] },
            save := Except.ok () })] "tok" "sheet").toOption.map
      (fun p => p.1.map ProcessedReceipt.id) = some ["a0", "a0"] ∧
    ¬ (["a0", "a0"] : List String).Nodup := by
  refine ⟨?_, ?_⟩ <;> decide

theorem C6_witness :
    ∃ final events,
      handleProcessReceipts
          [({ name := "a", preview := "p0" },
            { now := 7, ocr := Except.error "x",
              gen := Except.ok { merchant := "", date := "", total := 0, items := [] },
              save := Except.ok () }),
           ({ name := "b", preview := "p1" },
            { now := 7, ocr := Except.error "x",
              gen := Except.ok { merchant := "", date := "", total := 0, items := [] },
              save := Except.ok () })] "tok" "sheet" = Except.ok (final, events) ∧
      final.length = 2 ∧
      final.map (fun r => (r.id, r.imagePreview)) = [("a7", "p0"), ("b7", "p1")] ∧
      (final.map ProcessedReceipt.id).Nodup := by
  obtain ⟨final, events, h1, h2, h3, h4⟩ :=
    C6_batch_shape
      [({ name := "a", preview := "p0" },
        { now := 7, ocr := Except.error "x",
          gen := Except.ok { merchant := "", date := "", total := 0, items := [] },
          save := Except.ok () }),
       ({ name := "b", preview := "p1" },
        { now := 7, ocr := Except.error "x",
          gen := Except.ok { merchant := "", date := "", total := 0, items := [] },
          save := Except.ok () })] "tok" "sheet"
      (by decide) (by decide) (by decide)
  refine ⟨final, events, h1, by simpa using h2, by simpa using h3,
    h4 ⟨1, by decide⟩ (by decide)⟩

/-- Claim C1 (amended): provided the batch's generated job ids are
pairwise distinct, every job whose extraction yields non-empty text and
whose structuring succeeds has the structured result written to its
record's `data` field — a snapshot showing the populated `data` is
emitted strictly before the persistence collaborator is invoked — and
when persistence then fails the job's final record still carries that
`data` together with `saveStatus = failed` and the persistence-originated
error message (or the generic fallback for an empty message); no
later-stage failure resets `data`. Without the distinct-id proviso the
updates of a colliding job are misdirected to the earlier record with the
same id (see the counterexample). -/
theorem C1_data_retained_on_save_failure (inputs : List (FileInput × JobOutcome))
    (k : Nat) (hk : k < inputs.length) (f : FileInput) (e : JobOutcome)
    (hin : inputs.get ⟨k, hk⟩ = (f, e)) (hN : (batchIds inputs).Nodup)
    (t : String) (hocr : e.ocr = Except.ok t) (htne : t ≠ "")
    (d : ExpenseData) (hgen : e.gen = Except.ok d)
    (m : String) (hsave : e.save = Except.error m) :
    (∃ r, (processBatch [] inputs).1[k]? = some r ∧ r.id = mkId f e ∧
      r.data = some d ∧ r.saveStatus = SaveStatus.failed ∧
      r.error = some (orUnknown m)) ∧
    (∃ s, [Event.snap s, Event.call (mkId f e) CallKind.saveToGoogleSheets].Sublist
        (processBatch [] inputs).2 ∧
      ∃ r ∈ s, r.id = mkId f e ∧ r.data = some d) := by
  have H0 : ((List.map ProcessedReceipt.id ([] : List ProcessedReceipt)) ++
      batchIds inputs).Nodup := by simpa using hN
  constructor
  · have hfin := processBatch_final inputs [] H0
    refine ⟨jobFinal f e, ?_, ?_, ?_, ?_, ?_⟩
    · rw [hfin]
      simp only [List.nil_append]
      have hin' : inputs[k] = (f, e) := hin
      simp [List.getElem?_map, List.getElem?_eq_getElem hk, hin']
    · exact jobFinal_id f e
    · simp [jobFinal, hocr, if_neg htne, hgen, hsave, applyUpdate, failUpdate]
    · simp [jobFinal, hocr, if_neg htne, hgen, hsave, applyUpdate, failUpdate]
    · simp [jobFinal, hocr, if_neg htne, hgen, hsave, applyUpdate, failUpdate]
  · have hsub := processBatch_jobEvents_sublist inputs [] H0 k hk
    rw [hin] at hsub
    simp only [List.nil_append] at hsub
    set mid := (inputs.take k).map (fun p => jobFinal p.1 p.2) with hmid
    have hinner : [Event.snap (mid ++
        [applyUpdate
          (applyUpdate (initialResult f e) { status := some "Structuring data..." })
          { status := some "Data extracted", data := some (some d) }]),
        Event.call (mkId f e) CallKind.saveToGoogleSheets].Sublist
        (jobEvents mid f e) := by
      simp only [jobEvents, hocr, if_neg htne, hgen, hsave]
      exact List.Sublist.cons _ (List.Sublist.cons _ (List.Sublist.cons _
        (List.Sublist.cons _ (List.Sublist.cons₂ _ (List.Sublist.cons _
          (List.Sublist.cons₂ _ (List.Sublist.cons _ List.Sublist.slnil)))))))
    refine ⟨mid ++
      [applyUpdate
        (applyUpdate (initialResult f e) { status := some "Structuring data..." })
        { status := some "Data extracted", data := some (some d) }],
      hinner.trans hsub, ?_⟩
    refine ⟨applyUpdate
      (applyUpdate (initialResult f e) { status := some "Structuring data..." })
      { status := some "Data extracted", data := some (some d) },
      List.mem_append_right mid (List.mem_singleton.mpr rfl), rfl, rfl⟩

theorem C1_counterexample :
    ((processBatch []
        [({ name := "a", preview := "p0" },
          { now := 0, ocr := Except.ok "t",
            gen := Except.ok { merchant := "M", date := "D", total := 1, items := [] },
            save := Except.ok () }),
         ({ name := "a", preview := "p1" },
          { now := 0, ocr := Except.ok "t",
            gen := Except.ok { merchant := "N", date := "E", total := 2, items := [] },
            save := Except.error "boom" })]).1[1]?).map
      (fun r => (r.data, r.saveStatus, r.error)) =
      some (none, SaveStatus.pending, none) := by
  decide

theorem C1_witness :
    (∃ r, (processBatch []
        [({ name := "a", preview := "p" },
          { now := 0, ocr := Except.ok "txt",
            gen := Except.ok { merchant := "M", date := "D", total := 5, items := [] },
            save := Except.error "boom" })]).1[0]? = some r ∧
      r.id = mkId { name := "a", preview := "p" }
        { now := 0, ocr := Except.ok "txt",
          gen := Except.ok { merchant := "M", date := "D", total := 5, items := [] },
          save := Except.error "boom" } ∧
      r.data = some { merchant := "M", date := "D", total := 5, items := [] } ∧
      r.saveStatus = SaveStatus.failed ∧ r.error = some (orUnknown "boom")) ∧
    (∃ s, [Event.snap s,
        Event.call
          (mkId { name := "a", preview := "p" }
            { now := 0, ocr := Except.ok "txt",
              gen := Except.ok { merchant := "M", date := "D", total := 5, items := [] },
              save := Except.error "boom" })
          CallKind.saveToGoogleSheets].Sublist
        (processBatch []
          [({ name := "a", preview := "p" },
            { now := 0, ocr := Except.ok "txt",
              gen := Except.ok { merchant := "M", date := "D", total := 5, items := [] },
              save := Except.error "boom" })]).2 ∧
      ∃ r ∈ s, r.id = mkId { name := "a", preview := "p" }
          { now := 0, ocr := Except.ok "txt",
            gen := Except.ok { merchant := "M", date := "D", total := 5, items := [] },
            save := Except.error "boom" } ∧
        r.data = some { merchant := "M", date := "D", total := 5, items := [] }) :=
  C1_data_retained_on_save_failure
    [({ name := "a", preview := "p" },
      { now := 0, ocr := Except.ok "txt",
        gen := Except.ok { merchant := "M", date := "D", total := 5, items := [] },
        save := Except.error "boom" })]
    0 (by decide) _ _ rfl (by decide) "txt" rfl (by decide)
    { merchant := "M", date := "D", total := 5, items := [] } rfl "boom" rfl

/-- Claim C2 (amended): provided the batch's generated job ids are
pairwise distinct, a job whose extraction resolves with empty text goes
directly from its initial state to Failed with exactly the error
"Could not extract any text. The image might be unclear.", ends with
`saveStatus = failed` and `data = null`, and the structuring collaborator
is never invoked for that job (no structuring call carries its id, and
every snapshot shows its record only in the initial or the Failed state).
Without the distinct-id proviso the failure update is misdirected to an
earlier record with the same id and the job's own record stays pending
(see the counterexample). -/
theorem C2_empty_extraction_fails (inputs : List (FileInput × JobOutcome))
    (k : Nat) (hk : k < inputs.length) (f : FileInput) (e : JobOutcome)
    (hin : inputs.get ⟨k, hk⟩ = (f, e)) (hN : (batchIds inputs).Nodup)
    (hocr : e.ocr = Except.ok "") :
    (∃ r, (processBatch [] inputs).1[k]? = some r ∧ r.id = mkId f e ∧
      r.status = "Failed" ∧ r.data = none ∧ r.saveStatus = SaveStatus.failed ∧
      r.error = some "Could not extract any text. The image might be unclear.") ∧
    (∀ i, Event.call i CallKind.generateExpenseJson ∈ (processBatch [] inputs).2 →
      i ≠ mkId f e) ∧
    (∀ s ∈ snapsOf (processBatch [] inputs).2, ∀ r ∈ s, r.id = mkId f e →
      r.status = "Processing OCR..." ∨ r.status = "Failed") := by
  have H0 : ((List.map ProcessedReceipt.id ([] : List ProcessedReceipt)) ++
      batchIds inputs).Nodup := by simpa using hN
  have hNm : (inputs.map (fun p => mkId p.1 p.2)).Nodup := by
    simpa [batchIds] using hN
  have hmkk : mkId (inputs.get ⟨k, hk⟩).1 (inputs.get ⟨k, hk⟩).2 = mkId f e := by
    rw [hin]
  refine ⟨?_, ?_, ?_⟩
  · have hfin := processBatch_final inputs [] H0
    refine ⟨jobFinal f e, ?_, jobFinal_id f e, ?_, ?_, ?_, ?_⟩
    · rw [hfin]
      simp only [List.nil_append]
      have hin' : inputs[k] = (f, e) := hin
      simp [List.getElem?_map, List.getElem?_eq_getElem hk, hin']
    · simp [jobFinal, hocr, applyUpdate, failUpdate, initialResult]
    · simp [jobFinal, hocr, applyUpdate, failUpdate, initialResult]
    · simp [jobFinal, hocr, applyUpdate, failUpdate, initialResult]
    · simp [jobFinal, hocr, applyUpdate, failUpdate, initialResult, orUnknown]
  · intro i hm heq
    obtain ⟨k', hk', hi, hgenc⟩ := processBatch_calls inputs [] H0 i _ hm
    obtain ⟨t, hts, htne⟩ := hgenc rfl
    have hmk : mkId (inputs.get ⟨k', hk'⟩).1 (inputs.get ⟨k', hk'⟩).2 =
        mkId (inputs.get ⟨k, hk⟩).1 (inputs.get ⟨k, hk⟩).2 := by
      rw [hmkk, ← hi, heq]
    have heqel : inputs.get ⟨k', hk'⟩ = inputs.get ⟨k, hk⟩ :=
      List.inj_on_of_nodup_map hNm (List.get_mem inputs k' hk') (List.get_mem inputs k hk) hmk
    rw [heqel, hin] at hts
    have hts' : e.ocr = Except.ok t := hts
    rw [hocr] at hts'
    exact htne (Except.ok.inj hts').symm
  · intro s hs r hr hid
    obtain ⟨k', hk', rc, hrc, hshape⟩ := processBatch_snaps_shape inputs [] H0 s hs
    subst hshape
    simp only [List.nil_append] at hr
    rcases List.mem_append.mp hr with hr | hr
    · rcases List.mem_map.mp hr with ⟨p, hp, rfl⟩
      have hpin : p ∈ inputs := List.take_subset k' inputs hp
      have hmk : mkId p.1 p.2 = mkId (inputs.get ⟨k, hk⟩).1 (inputs.get ⟨k, hk⟩).2 := by
        rw [hmkk, ← jobFinal_id p.1 p.2]
        exact hid
      have hpel : p = inputs.get ⟨k, hk⟩ :=
        List.inj_on_of_nodup_map hNm hpin (List.get_mem inputs k hk) hmk
      rw [hpel, hin]
      right
      simp [jobFinal, hocr, applyUpdate, failUpdate]
    · rcases List.mem_singleton.mp hr with rfl
      have hmk : mkId (inputs.get ⟨k', hk'⟩).1 (inputs.get ⟨k', hk'⟩).2 =
          mkId (inputs.get ⟨k, hk⟩).1 (inputs.get ⟨k, hk⟩).2 := by
        rw [hmkk, ← (jobRecs_facts _ _ r hrc).1]
        exact hid
      have heqel : inputs.get ⟨k', hk'⟩ = inputs.get ⟨k, hk⟩ :=
        List.inj_on_of_nodup_map hNm (List.get_mem inputs k' hk') (List.get_mem inputs k hk) hmk
      rw [heqel, hin] at hrc
      have hrc' : r ∈ jobRecs f e := hrc
      simp only [jobRecs, hocr, if_pos rfl] at hrc'
      rcases List.mem_cons.mp hrc' with h | h
      · left
        subst h
        rfl
      · have h2 := List.mem_singleton.mp h
        right
        subst h2
        simp [applyUpdate, failUpdate]

theorem C2_counterexample :
    ((processBatch []
        [({ name := "a", preview := "p0" },
          { now := 0, ocr := Except.ok "t",
            gen := Except.ok { merchant := "M", date := "D", total := 1, items := [] },
            save := Except.ok () }),
         ({ name := "a", preview := "p1" },
          { now := 0, ocr := Except.ok "",
            gen := Except.ok { merchant := "M", date := "D", total := 1, items := [] },
            save := Except.ok () })]).1[1]?).map
      (fun r => (r.status, r.saveStatus, r.error)) =
      some ("Processing OCR...", SaveStatus.pending, none) := by
  decide

theorem C2_witness :
    (∃ r, (processBatch []
        [({ name := "a", preview := "p" },
          { now := 0, ocr := Except.ok "",
            gen := Except.ok { merchant := "M", date := "D", total := 1, items := [] },
            save := Except.ok () })]).1[0]? = some r ∧
      r.id = mkId { name := "a", preview := "p" }
        { now := 0, ocr := Except.ok "",
          gen := Except.ok { merchant := "M", date := "D", total := 1, items := [] },
          save := Except.ok () } ∧
      r.status = "Failed" ∧ r.data = none ∧ r.saveStatus = SaveStatus.failed ∧
      r.error = some "Could not extract any text. The image might be unclear.") ∧
    (∀ i, Event.call i CallKind.generateExpenseJson ∈ (processBatch []
        [({ name := "a", preview := "p" },
          { now := 0, ocr := Except.ok "",
            gen := Except.ok { merchant := "M", date := "D", total := 1, items := [] },
            save := Except.ok () })]).2 →
      i ≠ mkId { name := "a", preview := "p" }
        { now := 0, ocr := Except.ok "",
          gen := Except.ok { merchant := "M", date := "D", total := 1, items := [] },
          save := Except.ok () }) ∧
    (∀ s ∈ snapsOf (processBatch []
        [({ name := "a", preview := "p" },
          { now := 0, ocr := Except.ok "",
            gen := Except.ok { merchant := "M", date := "D", total := 1, items := [] },
            save := Except.ok () })]).2, ∀ r ∈ s,
      r.id = mkId { name := "a", preview := "p" }
        { now := 0, ocr := Except.ok "",
          gen := Except.ok { merchant := "M", date := "D", total := 1, items := [] },
          save := Except.ok () } →
      r.status = "Processing OCR..." ∨ r.status = "Failed") :=
  C2_empty_extraction_fails
    [({ name := "a", preview := "p" },
      { now := 0, ocr := Except.ok "",
        gen := Except.ok { merchant := "M", date := "D", total := 1, items := [] },
        save := Except.ok () })]
    0 (by decide) _ _ rfl (by decide) rfl

/-- Claim C3 (amended): provided the batch's generated job ids are
pairwise distinct, jobs are processed strictly sequentially in input
order: in every emitted snapshot every record except possibly the last is
terminal (`saveStatus` is success or failed) — hence job k+1's record is
not created, and shows no update, before job k reached a terminal state —
and one job's failure does not prevent the remaining jobs from being
processed (the final collection has one record per input and every job's
extraction collaborator is invoked). Without the distinct-id proviso a
colliding job's record stays pending while later records are created
(see the counterexample). -/
theorem C3_sequential_processing (inputs : List (FileInput × JobOutcome))
    (tok sheet : String) (hne : inputs ≠ []) (htok : tok ≠ "")
    (hsheet : sheet ≠ "") (hN : (batchIds inputs).Nodup) :
    ∃ final events,
      handleProcessReceipts inputs tok sheet = Except.ok (final, events) ∧
      final.length = inputs.length ∧
      (∀ s ∈ snapsOf events, ∀ i r, i + 1 < s.length → s[i]? = some r →
        r.saveStatus ≠ SaveStatus.pending) ∧
      (∀ k, ∀ hk : k < inputs.length,
        Event.call (mkId (inputs.get ⟨k, hk⟩).1 (inputs.get ⟨k, hk⟩).2)
          CallKind.extractTextFromImage ∈ events) := by
  have hcond : (inputs.isEmpty || tok == "" || sheet == "") = false := by
    simp [hne, htok, hsheet]
  have H0 : ((List.map ProcessedReceipt.id ([] : List ProcessedReceipt)) ++
      batchIds inputs).Nodup := by simpa using hN
  refine ⟨(processBatch [] inputs).1, Event.snap [] :: (processBatch [] inputs).2,
    ?_, ?_, ?_, ?_⟩
  · simp [handleProcessReceipts, hcond]
  · rw [processBatch_final inputs [] H0]
    simp
  · intro s hs i r hlen hget
    have hsnap : snapsOf (Event.snap [] :: (processBatch [] inputs).2) =
        [] :: snapsOf (processBatch [] inputs).2 := rfl
    rw [hsnap] at hs
    rcases List.mem_cons.mp hs with rfl | hs
    · simp at hlen
    · obtain ⟨k', hk', rc, hrc, hshape⟩ := processBatch_snaps_shape inputs [] H0 s hs
      subst hshape
      simp only [List.nil_append] at hlen hget
      have hi : i < ((inputs.take k').map (fun p => jobFinal p.1 p.2)).length := by
        simp only [List.length_append, List.length_singleton] at hlen
        omega
      rw [List.getElem?_append, if_pos hi] at hget
      have hr : r ∈ (inputs.take k').map (fun p => jobFinal p.1 p.2) := by
        rw [List.getElem?_eq_getElem hi] at hget
        rcases Option.some.inj hget with rfl
        exact List.getElem_mem hi
      rcases List.mem_map.mp hr with ⟨p, hp, rfl⟩
      exact jobFinal_terminal p.1 p.2
  · intro k hk
    exact List.mem_cons_of_mem _ (processBatch_extract_call inputs [] H0 k hk)

theorem C3_counterexample :
    Event.snap
        [{ id := "a0", imagePreview := "p0", status := "Failed", data := none,
            saveStatus := SaveStatus.failed, error := some "x" },
          { id := "a0", imagePreview := "p1", status := "Processing OCR...",
            data := none, saveStatus := SaveStatus.pending, error := none },
          { id := "b0", imagePreview := "p2", status := "Processing OCR...",
            data := none, saveStatus := SaveStatus.pending, error := none }] ∈
      (processBatch []
        [({ name := "a", preview := "p0" },
          { now := 0, ocr := Except.error "x",
            gen := Except.ok { merchant := "", date := "", total := 0, items := [] },
            save := Except.ok () }),
         ({ name := "a", preview := "p1" },
          { now := 0, ocr := Except.error "x",
            gen := Except.ok { merchant := "", date := "", total := 0, items := [] },
            save := Except.ok () }),
         ({ name := "b", preview := "p2" },
          { now := 0, ocr := Except.error "x",
            gen := Except.ok { merchant := "", date := "", total := 0, items := [] },
            save := Except.ok () })]).2 ∧
    (1 + 1 <
      ([{ id := "a0", imagePreview := "p0", status := "Failed", data := none,
            saveStatus := SaveStatus.failed, error := some "x" },
          { id := "a0", imagePreview := "p1", status := "Processing OCR...",
            data := none, saveStatus := SaveStatus.pending, error := none },
          { id := "b0", imagePreview := "p2", status := "Processing OCR...",
            data := none, saveStatus := SaveStatus.pending, error := none }] :
        List ProcessedReceipt).length) ∧
    ([{ id := "a0", imagePreview := "p0", status := "Failed", data := none,
          saveStatus := SaveStatus.failed, error := some "x" },
        { id := "a0", imagePreview := "p1", status := "Processing OCR...",
          data := none, saveStatus := SaveStatus.pending, error := none },
        { id := "b0", imagePreview := "p2", status := "Processing OCR...",
          data := none, saveStatus := SaveStatus.pending, error := none }] :
      List ProcessedReceipt)[1]?.map (fun r => r.saveStatus) =
      some SaveStatus.pending := by
  refine ⟨?_, ?_, ?_⟩ <;> decide

theorem C3_witness :
    ∃ final events,
      handleProcessReceipts
          [({ name := "a", preview := "p" },
            { now := 0, ocr := Except.error "x",
              gen := Except.ok { merchant := "", date := "", total := 0, items := [] },
              save := Except.ok () })] "tok" "sheet" = Except.ok (final, events) ∧
      final.length = 1 ∧
      (∀ s ∈ snapsOf events, ∀ i r, i + 1 < s.length → s[i]? = some r →
        r.saveStatus ≠ SaveStatus.pending) ∧
      (∀ k, ∀ hk : k < 1,
        Event.call
          (mkId
            (([(({ name := "a", preview := "p" } : FileInput),
                ({ now := 0,
                    ocr := Except.error "x",
                    gen := Except.ok { merchant := "", date := "", total := 0, items := [] },
                    save := Except.ok () } : JobOutcome))].get ⟨k, hk⟩).1)
            (([(({ name := "a", preview := "p" } : FileInput),
                ({ now := 0,
                    ocr := Except.error "x",
                    gen := Except.ok { merchant := "", date := "", total := 0, items := [] },
                    save := Except.ok () } : JobOutcome))].get ⟨k, hk⟩).2))
          CallKind.extractTextFromImage ∈ events) :=
  C3_sequential_processing
    [({ name := "a", preview := "p" },
      { now := 0, ocr := Except.error "x",
        gen := Except.ok { merchant := "", date := "", total := 0, items := [] },
        save := Except.ok () })] "tok" "sheet"
    (by decide) (by decide) (by decide) (by decide)

/-- Claim C5 (amended): provided the batch's generated job ids are
pairwise distinct, every record of every emitted snapshot satisfies
`saveStatus = success → data ≠ null ∧ error = null` and
`saveStatus = failed → error ≠ null`, and across successive snapshots a
record's status only advances through the phase sequence (its
`statusRank` never decreases). Without the distinct-id proviso both parts
fail: updates of a colliding job are applied to the earlier record with
the same id, driving an already terminal record's status backwards (see
the counterexample). -/
theorem C5_snapshot_invariants (inputs : List (FileInput × JobOutcome))
    (tok sheet : String) (hne : inputs ≠ []) (htok : tok ≠ "")
    (hsheet : sheet ≠ "") (hN : (batchIds inputs).Nodup) :
    ∃ final events,
      handleProcessReceipts inputs tok sheet = Except.ok (final, events) ∧
      (∀ s ∈ snapsOf events, ∀ r ∈ s, fieldInv r) ∧
      List.Chain' rankStep (snapsOf events) := by
  have hcond : (inputs.isEmpty || tok == "" || sheet == "") = false := by
    simp [hne, htok, hsheet]
  have H0 : ((List.map ProcessedReceipt.id ([] : List ProcessedReceipt)) ++
      batchIds inputs).Nodup := by simpa using hN
  refine ⟨(processBatch [] inputs).1, Event.snap [] :: (processBatch [] inputs).2,
    by simp [handleProcessReceipts, hcond], ?_, ?_⟩
  · intro s hs r hr
    have hsnap : snapsOf (Event.snap [] :: (processBatch [] inputs).2) =
        [] :: snapsOf (processBatch [] inputs).2 := rfl
    rw [hsnap] at hs
    rcases List.mem_cons.mp hs with rfl | hs
    · exact absurd hr (List.not_mem_nil r)
    · obtain ⟨k', hk', rc, hrc, hshape⟩ := processBatch_snaps_shape inputs [] H0 s hs
      subst hshape
      simp only [List.nil_append] at hr
      rcases List.mem_append.mp hr with hr | hr
      · rcases List.mem_map.mp hr with ⟨p, _, rfl⟩
        exact (jobRecs_facts p.1 p.2 _ (jobFinal_mem p.1 p.2)).2.2
      · rcases List.mem_singleton.mp hr with rfl
        exact (jobRecs_facts _ _ r hrc).2.2
  · have hchain := processBatch_chain inputs [] H0
    rw [show snapsOf (Event.snap [] :: (processBatch [] inputs).2) =
      [] :: snapsOf (processBatch [] inputs).2 from rfl]
    refine List.chain'_cons'.mpr ⟨?_, hchain⟩
    intro y _ r hr r' _ _
    exact absurd hr (List.not_mem_nil r)

instance rankStepDecidable : DecidableRel rankStep := fun s s' =>
  inferInstanceAs (Decidable (∀ r ∈ s, ∀ r' ∈ s',
    r.id = r'.id → statusRank r.status ≤ statusRank r'.status))

theorem C5_counterexample :
    (snapsOf (processBatch []
        [({ name := "a", preview := "p0" },
          { now := 0, ocr := Except.ok "t",
            gen := Except.ok { merchant := "M", date := "D", total := 1, items := [] },
            save := Except.ok () }),
         ({ name := "a", preview := "p1" },
          { now := 0, ocr := Except.ok "t",
            gen := Except.error "g",
            save := Except.ok () })]).2)[5]? =
      some [{ id := "a0", imagePreview := "p0", status := "Saved successfully!",
              data := some { merchant := "M", date := "D", total := 1, items := [] },
              saveStatus := SaveStatus.success, error := none },
            { id := "a0", imagePreview := "p1", status := "Processing OCR...",
              data := none, saveStatus := SaveStatus.pending, error := none }] ∧
    (snapsOf (processBatch []
        [({ name := "a", preview := "p0" },
          { now := 0, ocr := Except.ok "t",
            gen := Except.ok { merchant := "M", date := "D", total := 1, items := [] },
            save := Except.ok () }),
         ({ name := "a", preview := "p1" },
          { now := 0, ocr := Except.ok "t",
            gen := Except.error "g",
            save := Except.ok () })]).2)[6]? =
      some [{ id := "a0", imagePreview := "p0", status := "Structuring data...",
              data := some { merchant := "M", date := "D", total := 1, items := [] },
              saveStatus := SaveStatus.success, error := none },
            { id := "a0", imagePreview := "p1", status := "Processing OCR...",
              data := none, saveStatus := SaveStatus.pending, error := none }] ∧
    ¬ rankStep
      [{ id := "a0", imagePreview := "p0", status := "Saved successfully!",
          data := some { merchant := "M", date := "D", total := 1, items := [] },
          saveStatus := SaveStatus.success, error := none },
        { id := "a0", imagePreview := "p1", status := "Processing OCR...",
          data := none, saveStatus := SaveStatus.pending, error := none }]
      [{ id := "a0", imagePreview := "p0", status := "Structuring data...",
          data := some { merchant := "M", date := "D", total := 1, items := [] },
          saveStatus := SaveStatus.success, error := none },
        { id := "a0", imagePreview := "p1", status := "Processing OCR...",
          data := none, saveStatus := SaveStatus.pending, error := none }] := by
  refine ⟨?_, ?_, ?_⟩ <;> decide

theorem C5_witness :
    ∃ final events,
      handleProcessReceipts
          [({ name := "a", preview := "p" },
            { now := 0, ocr := Except.ok "t",
              gen := Except.ok { merchant := "M", date := "D", total := 1, items := [] },
              save := Except.ok () })] "tok" "sheet" = Except.ok (final, events) ∧
      (∀ s ∈ snapsOf events, ∀ r ∈ s, fieldInv r) ∧
      List.Chain' rankStep (snapsOf events) :=
  C5_snapshot_invariants
    [({ name := "a", preview := "p" },
      { now := 0, ocr := Except.ok "t",
        gen := Except.ok { merchant := "M", date := "D", total := 1, items := [] },
        save := Except.ok () })] "tok" "sheet"
    (by decide) (by decide) (by decide) (by decide)
